import Mathlib

/-!
Verification development for the Fiverr gig review scraper
(`src/lib/scraper.ts`, `src/lib/rateLimiter.ts`).

The TypeScript sources are shallowly embedded: pure string/list logic is
translated directly; DOM queries (querySelector / cheerio `find`) are
treated as the environment, so a candidate element is modelled as a record
holding the *results* of exactly the queries the source performs, while all
string tests, regexes, thresholds and strategy ordering are embedded from
the source.  JS numbers are modelled as `ℚ` (exact for the decimal literals
the code parses), JS string `.length` as codepoint length, and `Date.now()`
as an explicit `ℕ` parameter.
-/

namespace Scraper

/-! ### JS string primitives used by the source -/

/-- `needle` is a leading segment of `hay` (character lists). -/
def hasPreChars : List Char → List Char → Bool
  | [], _ => true
  | _ :: _, [] => false
  | a :: as, b :: bs => a == b && hasPreChars as bs

/-- `needle` occurs contiguously somewhere in `hay` (character lists). -/
def hasSubChars (needle : List Char) : List Char → Bool
  | [] => needle.isEmpty
  | c :: rest => hasPreChars needle (c :: rest) || hasSubChars needle rest

/-- Model of JS `hay.includes(needle)` (case-sensitive substring test). -/
def strIncludes (hay needle : String) : Bool :=
  hasSubChars needle.toList hay.toList

/-- Substring occurrence as a proposition (for spec-side statements). -/
def OccursIn (needle hay : String) : Prop :=
  ∃ p t, hay.toList = p ++ needle.toList ++ t

/-! ### The `Review` record (`src/lib/types.ts`)

`rating` is a JS number, modelled as `ℚ`; the optional `country` is
modelled as a `String`, with `""` standing for an absent field (the code
only ever reads it through `country || ''`). -/

structure Review where
  reviewer : String
  rating : ℚ
  text : String
  date : String
  country : String
deriving DecidableEq, Repr

/-! ### `deduplicateReviews` (`src/lib/scraper.ts:853-868`)

The JS builds the key `` `${reviewer}-${text}-${date}` `` and keeps the
first record for each key, using a `Set` of seen keys (modelled as a list
of strings). -/

/-- The dedup identifier `` `${review.reviewer}-${review.text}-${review.date}` ``. -/
def reviewKey (r : Review) : String :=
  r.reviewer ++ "-" ++ r.text ++ "-" ++ r.date

/-- The loop of `deduplicateReviews`, carrying the `seen` key set. -/
def dedupGo (seen : List String) : List Review → List Review
  | [] => []
  | r :: rest =>
    if reviewKey r ∈ seen then dedupGo seen rest
    else r :: dedupGo (reviewKey r :: seen) rest

def deduplicateReviews (reviews : List Review) : List Review :=
  dedupGo [] reviews

/-! Spec-side deduplication: traverse the input, keeping the list of all
*earlier input records*; a record is dropped iff some earlier input record
`matches` it, and kept records are emitted unchanged in order.  This is a
direct rendering of the spec's "order-preserving, first-occurrence-wins"
contract, parameterised by the identity test. -/

def dedupeFirstOccurrence (same : Review → Review → Bool) :
    List Review → List Review → List Review
  | _, [] => []
  | earlier, r :: rest =>
    if earlier.any (fun e => same e r) then
      dedupeFirstOccurrence same (earlier ++ [r]) rest
    else
      r :: dedupeFirstOccurrence same (earlier ++ [r]) rest

/-- The spec's identity key: exact agreement on the
(reviewer, full text, date) tuple. -/
def sameTuple (a b : Review) : Bool :=
  a.reviewer == b.reviewer && a.text == b.text && a.date == b.date

/-- The identity actually used by the code: equality of the joined
`reviewer-text-date` strings. -/
def sameJoinedKey (a b : Review) : Bool :=
  reviewKey a == reviewKey b

/-! ### JS number and regex primitives

The only regexes the extractors use are
`/(\d+(?:\.\d+)?)\s*(?:out of|\/)\s*(\d+(?:\.\d+)?)/i` (ratings),
`/\/users\/([^\/\?#]+)/` (profile links) and
`/[A-Z][a-z]+ [A-Z][a-z]+/` (capitalised names).  None of them needs
backtracking (each greedy repetition is followed by a character it cannot
consume), so a deterministic greedy matcher scanning start positions left
to right implements JS first-match semantics exactly. -/

/-- The ASCII part of the JS whitespace class `\s`. -/
def isJsSpace (c : Char) : Bool :=
  c = ' ' || c = '\t' || c = '\n' || c = '\r'

def skipJsSpaces (cs : List Char) : List Char :=
  cs.dropWhile isJsSpace

def digitsToNat (ds : List Char) : ℕ :=
  ds.foldl (fun a c => a * 10 + (c.toNat - 48)) 0

/-- Model of JS `.trim()` (strip leading/trailing whitespace). -/
def jsTrim (s : String) : String :=
  String.mk (((s.toList.dropWhile isJsSpace).reverse.dropWhile isJsSpace).reverse)

/-- Model of JS `.toLowerCase()` (ASCII lowering). -/
def jsToLower (s : String) : String :=
  String.mk (s.toList.map Char.toLower)

/-- Greedy parse of `\d+(?:\.\d+)?` at the head of the input: the value
(JS `parseFloat` of the matched text, exact over `ℚ`) and the rest. -/
def parseNumberChars (cs : List Char) : Option (ℚ × List Char) :=
  let ds := cs.takeWhile Char.isDigit
  if ds.isEmpty then none
  else
    let rest := cs.drop ds.length
    match rest with
    | '.' :: rest2 =>
      let fs := rest2.takeWhile Char.isDigit
      if fs.isEmpty then some ((digitsToNat ds : ℚ), rest)
      else
        some (((digitsToNat ds * 10 ^ fs.length + digitsToNat fs : ℕ) : ℚ) /
          ((10 ^ fs.length : ℕ) : ℚ), rest2.drop fs.length)
    | _ => some ((digitsToNat ds : ℚ), rest)

/-- Case-insensitive literal match at the head of the input (`/i` flag). -/
def ciHasPre : List Char → List Char → Bool
  | [], _ => true
  | _ :: _, [] => false
  | a :: as, b :: bs => a.toLower == b.toLower && ciHasPre as bs

/-- The separator alternative `(?:out of|\/)` of the rating regex. -/
def parseSepChars (cs : List Char) : Option (List Char) :=
  if ciHasPre "out of".toList cs then some (cs.drop 6)
  else match cs with
    | '/' :: rest => some rest
    | _ => none

/-- The rating regex tried at the current start position. -/
def tryMatchXY (cs : List Char) : Option (ℚ × ℚ) :=
  match parseNumberChars cs with
  | none => none
  | some (x, r1) =>
    match parseSepChars (skipJsSpaces r1) with
    | none => none
    | some r3 =>
      match parseNumberChars (skipJsSpaces r3) with
      | none => none
      | some (y, _) => some (x, y)

def findMatchXY : List Char → Option (ℚ × ℚ)
  | [] => none
  | c :: rest =>
    match tryMatchXY (c :: rest) with
    | some m => some m
    | none => findMatchXY rest

/-- First match of the `X out of Y` rating regex, with both captured
numbers `parseFloat`ed. -/
def matchXoutOfY (s : String) : Option (ℚ × ℚ) :=
  findMatchXY s.toList

/-- JS `Math.round` (round half up) for the non-negative values produced
by the rating regex. -/
def jsRound (q : ℚ) : ℤ :=
  Rat.floor (q + 1 / 2)

/-- JS truthiness of an optional string (`null`/`undefined` and `""` are
falsy). -/
def otruthy : Option String → Bool
  | none => false
  | some s => s != ""

/-- First selector result that exists and has truthy (pre-trim) text; this
models `for (sel of sels) if (el && el.textContent) { use it; break }`. -/
def firstTruthy (l : List (Option String)) : Option String :=
  (l.filterMap id).find? (fun s => s != "")

/-- As `firstTruthy` but requiring and returning the trimmed text,
modelling `if (el.length > 0 && el.text().trim()) { use trim; break }`. -/
def firstTruthyTrimmed (l : List (Option String)) : Option String :=
  ((l.filterMap id).find? (fun s => jsTrim s != "")).map jsTrim

/-! ### Dynamic extractor (`extractReviews`, `scraper.ts:138-453`)

A candidate element is modelled by the results of the DOM queries the
function performs on it; every test, threshold and strategy order applied
to those results is embedded below. -/

/-- The country element query result (`scraper.ts:301-307`). -/
structure CountryEl where
  alt : Option String
  titleAttr : Option String
  text : String
  testid : Option String
deriving DecidableEq, Repr

/-- A candidate review element of the dynamic extractor.  `none` in an
`Option` field means the corresponding `querySelector` found nothing;
`textSelTexts`, `reviewerSelTexts` and `dateSelTexts` hold, per selector of
the source's ordered lists, the `textContent` of the first match. -/
structure Element where
  textContent : String
  userLinkHref : Option String
  reviewerTestIdText : Option String
  reviewerSelTexts : List (Option String)
  countryEl : Option CountryEl
  ratingAriaLabel : Option String
  starHtmls : List String
  textSelTexts : List (Option String)
  paragraphTexts : List String
  timeEl : Option (Option String × String)
  dateSelTexts : List (Option String)
deriving DecidableEq, Repr

/-- Button/pagination skip test on the (lowercased) element text
(`scraper.ts:227-234`). -/
def skipElementText (t : String) : Bool :=
  strIncludes t "show more reviews" || strIncludes t "load more" ||
  strIncludes t "see all" || strIncludes t "view all"

/-- First match of `/\/users\/([^\/\?#]+)/` (reviewer strategy 1). -/
def matchUsersPath : List Char → Option String
  | [] => none
  | c :: rest =>
    if hasPreChars "/users/".toList (c :: rest) then
      let cap := ((c :: rest).drop 7).takeWhile
        (fun ch => ch != '/' && ch != '?' && ch != '#')
      if cap.isEmpty then matchUsersPath rest else some (String.mk cap)
    else matchUsersPath rest

def reviewerStopWords : List String :=
  ["stars", "star", "review", "reviews", "feedback", "excellent", "great", "perfect"]

def countryIndicators : List String :=
  ["united", "kingdom", "states", "america", "canada", "australia",
   "germany", "france", "italy", "spain"]

/-- Reviewer strategy 4's per-token test (`scraper.ts:283-296`). -/
def usernameToken (node : String) : Bool :=
  node.length > 2 && node.length < 30 &&
  !(strIncludes node " ") &&
  !(node.toList.any Char.isDigit) &&
  !(reviewerStopWords.contains (jsToLower node)) &&
  !(countryIndicators.any (fun ind => strIncludes (jsToLower node) ind))

/-- Whitespace tokenizer modelling `allText.split(/\s+/)`: the JS split
may additionally emit empty tokens, but those fail `usernameToken`'s
length bound, so maximal non-space runs give the same selected token. -/
def tokenizeGo (cur : List Char) : List Char → List String
  | [] => if cur.isEmpty then [] else [String.mk cur.reverse]
  | c :: rest =>
    if isJsSpace c then
      if cur.isEmpty then tokenizeGo [] rest
      else String.mk cur.reverse :: tokenizeGo [] rest
    else tokenizeGo (c :: cur) rest

def jsSplitWs (s : String) : List String :=
  tokenizeGo [] s.toList

/-- The four reviewer strategies, in source order (`scraper.ts:236-297`). -/
def extractReviewer (el : Element) : String :=
  let s1 : String :=
    match el.userLinkHref with
    | some href =>
      match matchUsersPath href.toList with
      | some nm => nm
      | none => ""
    | none => ""
  if s1 != "" then s1 else
  let s2 : String :=
    match el.reviewerTestIdText with
    | some t => jsTrim t
    | none => ""
  if s2 != "" then s2 else
  let s3 : String :=
    match firstTruthy el.reviewerSelTexts with
    | some t => jsTrim t
    | none => ""
  if s3 != "" then s3 else
  match (jsSplitWs el.textContent).find? usernameToken with
  | some nm => nm
  | none => ""

/-- Country extraction (`scraper.ts:299-307`); note that by the operator
precedence of the source's `||`/`?:` chain the produced value is always the
element's trimmed text, never the `alt`/`title` attribute. -/
def extractCountry (el : Element) : String :=
  match el.countryEl with
  | none => ""
  | some ce =>
    if otruthy ce.alt || otruthy ce.titleAttr || jsTrim ce.text != "" ||
        ce.testid == some "country-name" then
      jsTrim ce.text
    else ""

/-- "Filled star" test on one star element's `outerHTML`
(`scraper.ts:328-336`). -/
def filledStarTest (html : String) : Bool :=
  strIncludes html "fill" || strIncludes html "★" || strIncludes html "full" ||
  strIncludes html "active" || strIncludes html "star-fill" ||
  strIncludes html "star-filled"

/-- The three rating strategies, in source order (`scraper.ts:309-348`):
aria-label `parseFloat` (uncapped, unrounded), filled-star count capped at
5, then rounded text match. -/
def extractRating (el : Element) : ℚ :=
  let r1 : ℚ :=
    match el.ratingAriaLabel with
    | some lbl =>
      match matchXoutOfY lbl with
      | some (x, _) => x
      | none => 0
    | none => 0
  let r2 : ℚ :=
    if r1 = 0 then ((min 5 (el.starHtmls.countP filledStarTest) : ℕ) : ℚ) else r1
  if r2 = 0 then
    match matchXoutOfY el.textContent with
    | some (x, _) => ((jsRound x : ℤ) : ℚ)
    | none => 0
  else r2

/-- Acceptance test of the primary (content-selector) text strategy
(`scraper.ts:368-373`). -/
def primaryTextOk (content : String) : Bool :=
  content.length > 10 &&
  !(strIncludes (jsToLower content) "show more") &&
  !(strIncludes (jsToLower content) "load more") &&
  !(strIncludes (jsToLower content) "see all") &&
  !(strIncludes (jsToLower content) "view all") &&
  content.length < 2000

def textFromSelectors : List (Option String) → String
  | [] => ""
  | none :: rest => textFromSelectors rest
  | some raw :: rest =>
    if raw != "" then
      let content := jsTrim raw
      if primaryTextOk content then content else textFromSelectors rest
    else textFromSelectors rest

/-- Acceptance test of the fallback paragraph strategy
(`scraper.ts:385`). -/
def paragraphTextOk (content : String) : Bool :=
  content.length > 20 && content.length < 2000

def textFromParagraphs : List String → String
  | [] => ""
  | p :: rest =>
    let content := jsTrim p
    if paragraphTextOk content then content else textFromParagraphs rest

def extractText (el : Element) : String :=
  let t1 := textFromSelectors el.textSelTexts
  if t1 != "" then t1 else textFromParagraphs el.paragraphTexts

/-- Date extraction (`scraper.ts:392-418`): `time` element first
(`datetime` attribute over text), then the date selector list. -/
def extractDate (el : Element) : String :=
  let d1 : String :=
    match el.timeEl with
    | some (dt, txt) =>
      match dt with
      | some d => if d != "" then d else jsTrim txt
      | none => jsTrim txt
    | none => ""
  if d1 != "" then d1 else
  match firstTruthy el.dateSelTexts with
  | some t => jsTrim t
  | none => ""

/-- Per-candidate record assembly of the dynamic extractor. -/
def extractFromElement (el : Element) : Review :=
  { reviewer := extractReviewer el
    rating := extractRating el
    text := extractText el
    date := extractDate el
    country := extractCountry el }

/-- The in-page dedup key `` `${name}|${text.slice(0,50)}|${date}` ``
(`scraper.ts:423`). -/
def pageKey (r : Review) : String :=
  r.reviewer ++ "|" ++ String.mk (r.text.toList.take 50) ++ "|" ++ r.date

/-- The element loop of `extractReviews` (`scraper.ts:222-448`): skip
button containers, extract, drop seen keys, validate
(reviewer nonempty, rating > 0, text nonempty), emit. -/
def processElements (seen : List String) : List Element → List Review
  | [] => []
  | el :: rest =>
    if skipElementText (jsToLower el.textContent) then processElements seen rest
    else
      let r := extractFromElement el
      if pageKey r ∈ seen then processElements seen rest
      else if r.reviewer != "" && decide (0 < r.rating) && r.text != "" then
        r :: processElements (pageKey r :: seen) rest
      else processElements seen rest

/-- `extractReviews` applied to the candidate elements the page scan
produced (the scan itself is DOM discovery, i.e. environment). -/
def extractReviewsModel (els : List Element) : List Review :=
  processElements [] els

/-- Dynamic-extractor challenge check (`scraper.ts:566`): case-sensitive
`includes` against `'human'`, `'touch'`, `'CAPTCHA'`, `'Security'`. -/
def dynamicChallengeCheck (pageTitle : String) : Bool :=
  strIncludes pageTitle "human" || strIncludes pageTitle "touch" ||
  strIncludes pageTitle "CAPTCHA" || strIncludes pageTitle "Security"

/-! ### Static extractor (`extractFiverrReviewsStatic`, `scraper.ts:618-846`)

As for the dynamic path, cheerio query results are candidate-element
inputs; the text tests, regexes and strategy order are embedded. -/

/-- One matched rating selector: its `aria-label` attribute and text. -/
structure RatingSel where
  ariaLabel : Option String
  text : String
deriving DecidableEq, Repr

/-- One matched date selector: its text and `datetime` attribute. -/
structure DateSel where
  text : String
  datetime : Option String
deriving DecidableEq, Repr

/-- A scanned element of the static extractor (`$('div, article, section')`),
holding the results of the `find` queries the source performs on it. -/
structure StaticEl where
  text : String
  starClassCount : ℕ
  ariaStarCount : ℕ
  avatarCount : ℕ
  dateElCount : ℕ
  navCount : ℕ
  reviewerSelTexts : List (Option String)
  ratingSels : List (Option RatingSel)
  starSvgCount : ℕ
  textSelTexts : List (Option String)
  dateSels : List (Option DateSel)
  flagAlt : Option (Option String)
deriving DecidableEq, Repr

/-- The review-container gate of the static scan (`scraper.ts:654-675`).
Note the review-indicator keyword test is case-sensitive in the source. -/
def staticIsCandidate (e : StaticEl) : Bool :=
  let hasStars := strIncludes e.text "★" || strIncludes e.text "☆" ||
    e.starClassCount > 0 || e.ariaStarCount > 0
  let hasAvatar := e.avatarCount > 0
  let hasDate := e.dateElCount > 0
  let hasReviewIndicators := e.text.length > 30 &&
    (strIncludes e.text "review" || strIncludes e.text "feedback" ||
     strIncludes e.text "great" || strIncludes e.text "good" ||
     strIncludes e.text "excellent" || strIncludes e.text "amazing" ||
     strIncludes e.text "perfect" || strIncludes e.text "wonderful")
  let isNavigation := e.navCount > 0
  let isMenu := strIncludes (jsToLower e.text) "menu" ||
    strIncludes (jsToLower e.text) "navigation" ||
    strIncludes (jsToLower e.text) "categories"
  hasStars && hasReviewIndicators && hasAvatar && hasDate &&
    !isNavigation && !isMenu

def isUpperAZ (c : Char) : Bool := 'A' ≤ c && c ≤ 'Z'

def isLowerAZ (c : Char) : Bool := 'a' ≤ c && c ≤ 'z'

/-- The name regex `/[A-Z][a-z]+ [A-Z][a-z]+/` tried at one position. -/
def tryTwoCapAt (cs : List Char) : Option String :=
  match cs with
  | [] => none
  | c1 :: rest1 =>
    if isUpperAZ c1 then
      let l1 := rest1.takeWhile isLowerAZ
      if l1.isEmpty then none
      else match rest1.drop l1.length with
        | ' ' :: c2 :: rest3 =>
          if isUpperAZ c2 then
            let l2 := rest3.takeWhile isLowerAZ
            if l2.isEmpty then none
            else some (String.mk (c1 :: l1 ++ ' ' :: c2 :: l2))
          else none
        | _ => none
    else none

def findTwoCapWords : List Char → Option String
  | [] => none
  | c :: rest =>
    match tryTwoCapAt (c :: rest) with
    | some m => some m
    | none => findTwoCapWords rest

/-- Static reviewer extraction (`scraper.ts:676-703`). -/
def staticReviewer (e : StaticEl) : String :=
  match firstTruthyTrimmed e.reviewerSelTexts with
  | some nm => nm
  | none =>
    match findTwoCapWords e.text.toList with
    | some nm => nm
    | none => ""

/-- The static rating selector loop (`scraper.ts:706-735`): per selector,
try the `aria-label` regex, then the text regex, both rounded. -/
def staticRatingFromSels : List (Option RatingSel) → ℤ
  | [] => 0
  | none :: rest => staticRatingFromSels rest
  | some sel :: rest =>
    let fromText : ℤ :=
      match matchXoutOfY sel.text with
      | some (x, _) => jsRound x
      | none => staticRatingFromSels rest
    match sel.ariaLabel with
    | some lbl =>
      if lbl != "" then
        match matchXoutOfY lbl with
        | some (x, _) => jsRound x
        | none => fromText
      else fromText
    | none => fromText

/-- Static rating with the star-count fallback capped at 5
(`scraper.ts:737-741`). -/
def staticRating (e : StaticEl) : ℤ :=
  let r := staticRatingFromSels e.ratingSels
  if r = 0 then min 5 (e.starSvgCount : ℤ) else r

/-- Static text acceptance (`scraper.ts:760-763`): length > 20, no
case-sensitive `'Show More'`/`'Load More'`/`'See All'`, no upper bound. -/
def staticTextOk (content : String) : Bool :=
  content.length > 20 &&
  !(strIncludes content "Show More") &&
  !(strIncludes content "Load More") &&
  !(strIncludes content "See All")

def staticTextFromSels : List (Option String) → String
  | [] => ""
  | none :: rest => staticTextFromSels rest
  | some raw :: rest =>
    if jsTrim raw != "" then
      let content := jsTrim raw
      if staticTextOk content then content else staticTextFromSels rest
    else staticTextFromSels rest

/-- Static date extraction (`scraper.ts:770-794`). -/
def staticDateFromSels : List (Option DateSel) → String
  | [] => ""
  | none :: rest => staticDateFromSels rest
  | some d :: rest =>
    if jsTrim d.text != "" then jsTrim d.text
    else match d.datetime with
      | some dt => if dt != "" then dt else staticDateFromSels rest
      | none => staticDateFromSels rest

/-- Static country extraction (`scraper.ts:796-804`). -/
def staticCountry (e : StaticEl) : String :=
  match e.flagAlt with
  | some alt => alt.getD ""
  | none => ""

/-- One element of the static scan: gate, field extraction, validation
(`scraper.ts:649-826`). -/
def staticEmit (e : StaticEl) : Option Review :=
  if staticIsCandidate e then
    let reviewer := staticReviewer e
    let rating := staticRating e
    let textContent := staticTextFromSels e.textSelTexts
    if reviewer != "" && decide (0 < rating) && textContent != "" then
      some { reviewer := reviewer, rating := (rating : ℚ), text := textContent,
             date := staticDateFromSels e.dateSels, country := staticCountry e }
    else none
  else none

/-- The static in-pass dedup key `` `${reviewer}-${text.substring(0,30)}` ``
(`scraper.ts:833`). -/
def staticKey (r : Review) : String :=
  r.reviewer ++ "-" ++ String.mk (r.text.toList.take 30)

def staticDedupGo (seen : List String) : List Review → List Review
  | [] => []
  | r :: rest =>
    if staticKey r ∈ seen then staticDedupGo seen rest
    else r :: staticDedupGo (staticKey r :: seen) rest

/-- Static-extractor challenge check (`scraper.ts:640`): case-sensitive
`includes` against `'human'`, `'touch'`, `'CAPTCHA'` only. -/
def staticChallengeCheck (title : String) : Bool :=
  strIncludes title "human" || strIncludes title "touch" ||
  strIncludes title "CAPTCHA"

/-- `extractFiverrReviewsStatic` after the fetch: the title challenge
check (returning empty immediately on a match), the element scan, and the
in-pass dedup. -/
def extractFiverrReviewsStatic (title : String) (els : List StaticEl) :
    List Review :=
  if staticChallengeCheck title then []
  else staticDedupGo [] (els.filterMap staticEmit)

/-! ### Orchestrator (`extractFiverrReviewsWithFallback`, `scraper.ts:460-506`)

The two extractor invocations are modelled by their outcomes (`Except`:
thrown `Error` message or returned list).  The static extractor is invoked
once inside the `try` (when the dynamic pass returned empty) and once
inside the `catch`; both call sites are modelled by the same deterministic
outcome `stat`.  In the `catch`, a failing static call's error is swallowed
and the *caught* error is rethrown. -/

def extractWithFallback (dyn stat : Except String (List Review)) :
    Except String (List Review) :=
  match dyn with
  | Except.ok reviews =>
    if reviews.length > 0 then Except.ok reviews
    else
      match stat with
      | Except.ok staticReviews =>
        if staticReviews.length > 0 then Except.ok staticReviews
        else Except.ok []
      | Except.error e => Except.error e
  | Except.error e =>
    match stat with
    | Except.ok staticReviews =>
      if staticReviews.length > 0 then Except.ok staticReviews
      else Except.error e
    | Except.error _ => Except.error e

/-! ### CSV serializer (`reviewsToCSV`, `scraper.ts:875-885`) -/

/-- Model of `s.replace(/"/g, '""')`. -/
def escapeQuotesJS (s : String) : String :=
  String.mk (s.toList.foldr
    (fun c acc => if c = '"' then '"' :: '"' :: acc else c :: acc) [])

/-- Number-to-string for the `${review.rating}` interpolation: integral JS
numbers print with no decimal point; non-integral decimal fractions print
their shortest decimal expansion.  (Denominators that divide no power of
ten cannot arise from the extractors; they get a fraction rendering.) -/
def ratingToString (q : ℚ) : String :=
  if q.den = 1 then toString q.num
  else
    match (List.range 30).find? (fun k => (10 ^ (k + 1)) % q.den = 0) with
    | some k =>
      let e := k + 1
      let scaled : ℤ := q.num * (10 : ℤ) ^ e / (q.den : ℤ)
      let ip := scaled / (10 : ℤ) ^ e
      let fp := (scaled % (10 : ℤ) ^ e).toNat
      let fpStr := toString fp
      toString ip ++ "." ++
        String.mk (List.replicate (e - fpStr.length) '0') ++ fpStr
    | none => toString q.num ++ "/" ++ toString q.den

def csvHeaders : List String :=
  ["Reviewer Name", "Rating", "Review Text", "Review Date", "Country"]

/-- One data row: the template literal at `scraper.ts:880`.  Reviewer and
text are quoted with quote-doubling; rating is interpolated bare; date and
country are quoted without any escaping. -/
def csvRow (r : Review) : String :=
  "\"" ++ escapeQuotesJS r.reviewer ++ "\"," ++ ratingToString r.rating ++
  ",\"" ++ escapeQuotesJS r.text ++ "\",\"" ++ r.date ++ "\",\"" ++
  r.country ++ "\""

def reviewsToCSV (reviews : List Review) : String :=
  String.intercalate "\n"
    (String.intercalate "," csvHeaders :: reviews.map csvRow)

def quoteWrap (s : String) : String := "\"" ++ s ++ "\""

/-- Spec-side row per the claim: *every* field quote-wrapped, *every*
field's quotes escaped by doubling. -/
def csvRowAllQuoted (r : Review) : String :=
  String.intercalate ","
    ([r.reviewer, ratingToString r.rating, r.text, r.date, r.country].map
      (fun v => quoteWrap (escapeQuotesJS v)))

def reviewsToCSVAllQuoted (reviews : List Review) : String :=
  String.intercalate "\n"
    (String.intercalate "," csvHeaders :: reviews.map csvRowAllQuoted)

/-- The row shape the code actually produces, written field-by-field. -/
def csvRowShape (r : Review) : String :=
  String.intercalate ","
    [quoteWrap (escapeQuotesJS r.reviewer), ratingToString r.rating,
     quoteWrap (escapeQuotesJS r.text), quoteWrap r.date, quoteWrap r.country]

/-! ### RateLimiter (`src/lib/rateLimiter.ts`)

The `Map` is an association list; `Date.now()` is the explicit `now`
argument.  `isRateLimited` returns its boolean together with the updated
map (the source mutates the map / the stored entry in place). -/

structure RateLimitEntry where
  count : ℕ
  resetTime : ℕ
deriving DecidableEq, Repr

def lookupEntry : List (String × RateLimitEntry) → String →
    Option RateLimitEntry
  | [], _ => none
  | (k, e) :: rest, c => if k = c then some e else lookupEntry rest c

def setEntry : List (String × RateLimitEntry) → String → RateLimitEntry →
    List (String × RateLimitEntry)
  | [], c, e => [(c, e)]
  | (k, e0) :: rest, c, e =>
    if k = c then (c, e) :: rest else (k, e0) :: setEntry rest c e

/-- `RateLimiter.isRateLimited` (`rateLimiter.ts:24-45`). -/
def isRateLimited (windowMs maxRequests : ℕ)
    (limits : List (String × RateLimitEntry)) (clientId : String) (now : ℕ) :
    Bool × List (String × RateLimitEntry) :=
  match lookupEntry limits clientId with
  | none => (false, setEntry limits clientId ⟨1, now + windowMs⟩)
  | some entry =>
    if entry.resetTime ≤ now then
      (false, setEntry limits clientId ⟨1, now + windowMs⟩)
    else if maxRequests ≤ entry.count then
      (true, limits)
    else
      (false, setEntry limits clientId ⟨entry.count + 1, entry.resetTime⟩)

/-- A sequence of admission checks for one client at the given times. -/
def runChecks (windowMs maxRequests : ℕ)
    (limits : List (String × RateLimitEntry)) (c : String) :
    List ℕ → List Bool
  | [] => []
  | t :: ts =>
    let step := isRateLimited windowMs maxRequests limits c t
    step.1 :: runChecks windowMs maxRequests step.2 c ts

def dynamicMarkers : List String := ["human", "touch", "CAPTCHA", "Security"]

def staticMarkers : List String := ["human", "touch", "CAPTCHA"]

def claim3ElTen : Element :=
  { textContent := "alice This gig was absolutely wonderful! 2023-10-15"
    userLinkHref := some "/users/alice"
    reviewerTestIdText := none
    reviewerSelTexts := [none, none, none, none, none]
    countryEl := none
    ratingAriaLabel := some "10 out of 10"
    starHtmls := []
    textSelTexts := [some "This gig was absolutely wonderful!",
      none, none, none, none, none]
    paragraphTexts := ["This gig was absolutely wonderful!"]
    timeEl := none
    dateSelTexts := [some "2023-10-15", none, none, none, none] }

def claim3ElHalf : Element :=
  { textContent := "bob Truly fantastic work, thank you!"
    userLinkHref := some "/users/bob"
    reviewerTestIdText := none
    reviewerSelTexts := [none, none, none, none, none]
    countryEl := none
    ratingAriaLabel := some "4.5 out of 5"
    starHtmls := []
    textSelTexts := [some "Truly fantastic work, thank you!",
      none, none, none, none, none]
    paragraphTexts := ["Truly fantastic work, thank you!"]
    timeEl := none
    dateSelTexts := [none, none, none, none, none] }

/-! ### Theorems -/

theorem hasPreChars_iff (n : List Char) : ∀ h : List Char,
    hasPreChars n h = true ↔ ∃ t, h = n ++ t := by
  induction n with
  | nil => intro h; simp [hasPreChars]
  | cons a as ih =>
    intro h
    cases h with
    | nil => simp [hasPreChars]
    | cons b bs =>
      simp only [hasPreChars, Bool.and_eq_true, beq_iff_eq, ih bs]
      constructor
      · rintro ⟨rfl, t, rfl⟩; exact ⟨t, rfl⟩
      · rintro ⟨t, ht⟩
        rw [List.cons_append] at ht
        injection ht with h1 h2
        exact ⟨h1.symm, t, h2⟩

theorem hasSubChars_iff (n : List Char) : ∀ h : List Char,
    hasSubChars n h = true ↔ ∃ p t, h = p ++ n ++ t := by
  intro h
  induction h with
  | nil =>
    cases n with
    | nil => simp [hasSubChars]
    | cons c cs => simp [hasSubChars]
  | cons c rest ih =>
    simp only [hasSubChars, Bool.or_eq_true, hasPreChars_iff, ih]
    constructor
    · rintro (⟨t, ht⟩ | ⟨p, t, hpt⟩)
      · exact ⟨[], t, by simp [ht]⟩
      · exact ⟨c :: p, t, by simp [hpt]⟩
    · rintro ⟨p, t, hpt⟩
      cases p with
      | nil => exact Or.inl ⟨t, by simpa using hpt⟩
      | cons x xs =>
        rw [List.cons_append, List.cons_append] at hpt
        injection hpt with h1 h2
        exact Or.inr ⟨xs, t, by simp [h2]⟩

theorem strIncludes_iff (hay needle : String) :
    strIncludes hay needle = true ↔ OccursIn needle hay :=
  hasSubChars_iff needle.toList hay.toList

theorem dedupGo_eq_firstOccurrence (same : Review → Review → Bool)
    (hm : ∀ e r, same e r = (reviewKey e == reviewKey r)) :
    ∀ (l : List Review) (seen : List String) (earlier : List Review),
      (∀ k, k ∈ seen ↔ ∃ e ∈ earlier, reviewKey e = k) →
      dedupGo seen l = dedupeFirstOccurrence same earlier l := by
  intro l
  induction l with
  | nil => intro seen earlier _; rfl
  | cons r rest ih =>
    intro seen earlier hinv
    have hcond : (reviewKey r ∈ seen) ↔
        (earlier.any (fun e => same e r) = true) := by
      rw [hinv]
      simp only [List.any_eq_true, hm, beq_iff_eq]
    by_cases hmem : reviewKey r ∈ seen
    · rw [dedupGo, if_pos hmem, dedupeFirstOccurrence, if_pos (hcond.mp hmem)]
      apply ih seen (earlier ++ [r])
      intro k
      rw [hinv]
      constructor
      · rintro ⟨e, he, rfl⟩; exact ⟨e, by simp [he], rfl⟩
      · rintro ⟨e, he, rfl⟩
        rcases List.mem_append.mp he with h | h
        · exact ⟨e, h, rfl⟩
        · simp only [List.mem_singleton] at h
          subst h
          exact (hinv (reviewKey e)).mp hmem
    · have hcond' : ¬ (earlier.any (fun e => same e r) = true) :=
        fun h => hmem (hcond.mpr h)
      rw [dedupGo, if_neg hmem, dedupeFirstOccurrence, if_neg hcond']
      congr 1
      apply ih (reviewKey r :: seen) (earlier ++ [r])
      intro k
      constructor
      · intro hk
        rcases List.mem_cons.mp hk with rfl | hks
        · exact ⟨r, List.mem_append.mpr (Or.inr (List.mem_singleton.mpr rfl)), rfl⟩
        · rcases (hinv k).mp hks with ⟨e, he, rfl⟩
          exact ⟨e, List.mem_append.mpr (Or.inl he), rfl⟩
      · rintro ⟨e, he, rfl⟩
        rcases List.mem_append.mp he with h | h
        · exact List.mem_cons_of_mem _ ((hinv _).mpr ⟨e, h, rfl⟩)
        · rw [List.mem_singleton] at h
          subst h
          exact List.mem_cons_self _ _

/-! Supporting lemmas for idempotence, the length bound, and the
duplicate-dropping behaviour of `dedupGo`. -/

theorem dedupGo_length (l : List Review) :
    ∀ seen, (dedupGo seen l).length ≤ l.length := by
  induction l with
  | nil => intro seen; simp [dedupGo]
  | cons r rest ih =>
    intro seen
    by_cases h : reviewKey r ∈ seen
    · rw [dedupGo, if_pos h]
      exact Nat.le_succ_of_le (ih seen)
    · rw [dedupGo, if_neg h]
      simpa using Nat.succ_le_succ (ih (reviewKey r :: seen))

theorem dedupGo_keys_fresh (l : List Review) :
    ∀ seen, ∀ r ∈ dedupGo seen l, reviewKey r ∉ seen := by
  induction l with
  | nil => intro seen r hr; simp [dedupGo] at hr
  | cons x rest ih =>
    intro seen r hr
    by_cases h : reviewKey x ∈ seen
    · rw [dedupGo, if_pos h] at hr
      exact ih seen r hr
    · rw [dedupGo, if_neg h] at hr
      rcases List.mem_cons.mp hr with rfl | hr'
      · exact h
      · have := ih (reviewKey x :: seen) r hr'
        exact fun hc => this (List.mem_cons_of_mem _ hc)

theorem dedupGo_keys_nodup (l : List Review) :
    ∀ seen, ((dedupGo seen l).map reviewKey).Nodup := by
  induction l with
  | nil => intro seen; simp [dedupGo]
  | cons x rest ih =>
    intro seen
    by_cases h : reviewKey x ∈ seen
    · rw [dedupGo, if_pos h]; exact ih seen
    · rw [dedupGo, if_neg h]
      rw [List.map_cons, List.nodup_cons]
      refine ⟨?_, ih (reviewKey x :: seen)⟩
      intro hmem
      rcases List.mem_map.mp hmem with ⟨r, hr, hkey⟩
      have := dedupGo_keys_fresh rest (reviewKey x :: seen) r hr
      exact this (by rw [hkey]; exact List.mem_cons_self _ _)

theorem dedupGo_fixed (l : List Review) :
    ∀ seen, (∀ r ∈ l, reviewKey r ∉ seen) → ((l.map reviewKey).Nodup) →
    dedupGo seen l = l := by
  induction l with
  | nil => intro seen _ _; rfl
  | cons x rest ih =>
    intro seen hfresh hnd
    have hx : reviewKey x ∉ seen := hfresh x (List.mem_cons_self _ _)
    rw [dedupGo, if_neg hx]
    congr 1
    rw [List.map_cons, List.nodup_cons] at hnd
    apply ih (reviewKey x :: seen)
    · intro r hr
      intro hc
      rcases List.mem_cons.mp hc with heq | hmem
      · exact hnd.1 (heq ▸ List.mem_map_of_mem reviewKey hr)
      · exact hfresh r (List.mem_cons_of_mem _ hr) hmem
    · exact hnd.2

theorem dedupGo_drop_dup (b : Review) :
    ∀ (x : List Review) (seen : List String),
      (reviewKey b ∈ seen ∨ reviewKey b ∈ x.map reviewKey) →
      ∀ y, dedupGo seen (x ++ b :: y) = dedupGo seen (x ++ y) := by
  intro x
  induction x with
  | nil =>
    intro seen hb y
    have hb' : reviewKey b ∈ seen := by
      rcases hb with h | h
      · exact h
      · simp at h
    simp only [List.nil_append]
    rw [dedupGo, if_pos hb']
  | cons r rest ih =>
    intro seen hb y
    by_cases h : reviewKey r ∈ seen
    · rw [List.cons_append, dedupGo, if_pos h, List.cons_append, dedupGo,
        if_pos h]
      apply ih seen
      rcases hb with hs | hx
      · exact Or.inl hs
      · rw [List.map_cons] at hx
        rcases List.mem_cons.mp hx with heq | hmem
        · exact Or.inl (heq ▸ h)
        · exact Or.inr hmem
    · rw [List.cons_append, dedupGo, if_neg h, List.cons_append, dedupGo,
        if_neg h]
      congr 1
      apply ih (reviewKey r :: seen)
      rcases hb with hs | hx
      · exact Or.inl (List.mem_cons_of_mem _ hs)
      · rw [List.map_cons] at hx
        rcases List.mem_cons.mp hx with heq | hmem
        · exact Or.inl (heq ▸ List.mem_cons_self _ _)
        · exact Or.inr hmem

/-- Claim C4 counterexample: the code's dedup key is the string
`reviewer ++ "-" ++ text ++ "-" ++ date`, so the records `("a-b", "c", "d")`
and `("a", "b-c", "d")` collide although their (reviewer, full text, date)
tuples differ: `deduplicateReviews` drops the second record even though no
earlier input record agrees with it exactly on all three fields, refuting
the claim's tuple-identity characterisation. -/
theorem claim4_counterexample :
    deduplicateReviews
        [⟨"a-b", 5, "c", "d", ""⟩, ⟨"a", 4, "b-c", "d", ""⟩] =
      [⟨"a-b", 5, "c", "d", ""⟩] ∧
    dedupeFirstOccurrence sameTuple []
        [⟨"a-b", 5, "c", "d", ""⟩, ⟨"a", 4, "b-c", "d", ""⟩] =
      [⟨"a-b", 5, "c", "d", ""⟩, ⟨"a", 4, "b-c", "d", ""⟩] ∧
    deduplicateReviews
        [⟨"a-b", 5, "c", "d", ""⟩, ⟨"a", 4, "b-c", "d", ""⟩] ≠
      dedupeFirstOccurrence sameTuple []
        [⟨"a-b", 5, "c", "d", ""⟩, ⟨"a", 4, "b-c", "d", ""⟩] := by
  have h1 : deduplicateReviews
      [(⟨"a-b", 5, "c", "d", ""⟩ : Review), ⟨"a", 4, "b-c", "d", ""⟩] =
      [⟨"a-b", 5, "c", "d", ""⟩] := rfl
  have h2 : dedupeFirstOccurrence sameTuple []
      [(⟨"a-b", 5, "c", "d", ""⟩ : Review), ⟨"a", 4, "b-c", "d", ""⟩] =
      [⟨"a-b", 5, "c", "d", ""⟩, ⟨"a", 4, "b-c", "d", ""⟩] := rfl
  refine ⟨h1, h2, ?_⟩
  rw [h1, h2]
  intro h
  have hlen := congrArg List.length h
  simp at hlen

/-- Claim C4 (amended): `deduplicateReviews` is order-preserving and
first-occurrence-wins, with identity key equality of the joined string
`reviewer ++ "-" ++ text ++ "-" ++ date` (which agrees with the exact
(reviewer, full text, date) tuple except when hyphen boundaries collide):
a record is dropped iff some earlier input record has the same joined key,
and every kept record appears unchanged in its original relative order. -/
theorem claim4_dedupe_key (reviews : List Review) :
    deduplicateReviews reviews =
      dedupeFirstOccurrence sameJoinedKey [] reviews :=
  dedupGo_eq_firstOccurrence sameJoinedKey (fun _ _ => rfl) reviews [] []
    (by intro k; simp)

/-- Claim C9: deduplication is idempotent,
`deduplicateReviews (deduplicateReviews X) = deduplicateReviews X`, and
never lengthens its input, `|deduplicateReviews X| ≤ |X|`. -/
theorem claim9_dedupe_idempotent (X : List Review) :
    deduplicateReviews (deduplicateReviews X) = deduplicateReviews X ∧
    (deduplicateReviews X).length ≤ X.length := by
  constructor
  · show dedupGo [] (dedupGo [] X) = dedupGo [] X
    exact dedupGo_fixed (dedupGo [] X) []
      (fun r _ h => by simp at h) (dedupGo_keys_nodup X [])
  · exact dedupGo_length X []

/-- Claim C10: `deduplicateReviews` ignores the rating and country fields
entirely: if an input list contains records `a` before `b` agreeing on
reviewer, text and date but differing in rating or country, the occurrence
of `b` is dropped and contributes nothing to the output (the result equals
deduplicating the list with `b` removed), so `b`'s rating and country are
silently discarded. -/
theorem claim10_dedupe_ignores_rating_country
    (l1 : List Review) (a : Review) (l2 : List Review) (b : Review)
    (l3 : List Review)
    (hrev : a.reviewer = b.reviewer) (htext : a.text = b.text)
    (hdate : a.date = b.date)
    (_hdiff : a.rating ≠ b.rating ∨ a.country ≠ b.country) :
    deduplicateReviews (l1 ++ a :: l2 ++ b :: l3) =
      deduplicateReviews (l1 ++ a :: l2 ++ l3) := by
  have hkey : reviewKey b = reviewKey a := by
    simp [reviewKey, hrev, htext, hdate]
  have hmem : reviewKey b ∈ (l1 ++ a :: l2).map reviewKey := by
    rw [hkey]
    exact List.mem_map_of_mem reviewKey (by simp)
  have h := dedupGo_drop_dup b (l1 ++ a :: l2) [] (Or.inr hmem) l3
  simpa [deduplicateReviews, List.append_assoc] using h

/-- Witness for C10 at a concrete pair differing only in rating and
country. -/
theorem claim10_witness :
    deduplicateReviews
        [⟨"u", 5, "t", "d", ""⟩, ⟨"u", 3, "t", "d", "US"⟩] =
      deduplicateReviews [⟨"u", 5, "t", "d", ""⟩] :=
  claim10_dedupe_ignores_rating_country [] ⟨"u", 5, "t", "d", ""⟩ []
    ⟨"u", 3, "t", "d", "US"⟩ [] rfl rfl rfl (Or.inr (by simp))

/-- Claim C2: if the dynamic extractor throws, the orchestrator runs the
static extractor as recovery; a non-empty static result is returned (the
dynamic error is not surfaced), and if the static extractor also throws,
the original dynamic error is propagated, not the fallback's. -/
theorem claim2_fallback_policy (e e' : String) (s : List Review) :
    (s ≠ [] →
      extractWithFallback (Except.error e) (Except.ok s) = Except.ok s) ∧
    extractWithFallback (Except.error e) (Except.error e') =
      Except.error e := by
  constructor
  · intro hs
    have hlen : s.length > 0 := List.length_pos.mpr hs
    show (if s.length > 0 then Except.ok s else Except.error e) = Except.ok s
    rw [if_pos hlen]
  · rfl

/-- Witness for C2 at concrete error messages and a one-record static
result. -/
theorem claim2_witness :
    extractWithFallback (Except.error "dyn boom")
        (Except.ok [⟨"u", 5, "t", "d", ""⟩]) =
      Except.ok [⟨"u", 5, "t", "d", ""⟩] ∧
    extractWithFallback (Except.error "dyn boom")
        (Except.error "stat boom") =
      Except.error "dyn boom" :=
  ⟨(claim2_fallback_policy "dyn boom" "stat boom" [⟨"u", 5, "t", "d", ""⟩]).1
      (by simp),
   (claim2_fallback_policy "dyn boom" "stat boom" [⟨"u", 5, "t", "d", ""⟩]).2⟩

/-- Claim C7: an admission check for a client with no stored entry, or
whose stored entry's reset time has elapsed, installs a fresh entry with
`count = 1` and `resetTime = now + windowMs` and returns not-limited,
regardless of the old count. -/
theorem claim7_fresh_window (windowMs maxRequests : ℕ)
    (st : List (String × RateLimitEntry)) (c : String) (now : ℕ)
    (h : lookupEntry st c = none ∨
      ∃ entry, lookupEntry st c = some entry ∧ entry.resetTime ≤ now) :
    isRateLimited windowMs maxRequests st c now =
      (false, setEntry st c ⟨1, now + windowMs⟩) := by
  rcases h with h | ⟨entry, he, helapsed⟩
  · simp [isRateLimited, h]
  · simp [isRateLimited, he, helapsed]

/-- Witness for C7: an expired entry with count 7 is replaced by a fresh
window with count 1. -/
theorem claim7_witness :
    isRateLimited 60000 5 [("ip", ⟨7, 3⟩)] "ip" 10 =
      (false, [("ip", ⟨1, 60010⟩)]) := by
  have h := claim7_fresh_window 60000 5 [("ip", ⟨7, 3⟩)] "ip" 10
    (Or.inr ⟨⟨7, 3⟩, rfl, by decide⟩)
  rw [h]
  rfl

theorem lookupEntry_setEntry (st : List (String × RateLimitEntry))
    (c : String) (e : RateLimitEntry) :
    lookupEntry (setEntry st c e) c = some e := by
  induction st with
  | nil => simp [setEntry, lookupEntry]
  | cons p rest ih =>
    obtain ⟨k, e0⟩ := p
    by_cases h : k = c
    · simp [setEntry, lookupEntry, h]
    · simp [setEntry, lookupEntry, h, ih]

theorem runChecks_of_entry (W N : ℕ) (c : String) :
    ∀ (ts : List ℕ) (st : List (String × RateLimitEntry)) (k R : ℕ),
      lookupEntry st c = some ⟨k, R⟩ → (∀ t ∈ ts, t < R) →
      runChecks W N st c ts =
        (List.range ts.length).map (fun i => decide (N ≤ k + i)) := by
  intro ts
  induction ts with
  | nil => intro st k R _ _; simp [runChecks]
  | cons t ts ih =>
    intro st k R hlk hts
    have htR : ¬ (R ≤ t) := by
      have := hts t (List.mem_cons_self _ _); omega
    have htail : ∀ u ∈ ts, u < R := fun u hu => hts u (List.mem_cons_of_mem _ hu)
    rw [List.length_cons, List.range_succ_eq_map, List.map_cons, List.map_map]
    by_cases hk : N ≤ k
    · have hstep : isRateLimited W N st c t = (true, st) := by
        simp [isRateLimited, hlk, htR, hk]
      rw [runChecks, hstep]
      rw [ih st k R hlk htail]
      congr 1
      · simp [hk]
      · apply List.map_congr_left
        intro i _
        simp only [Function.comp]
        apply decide_eq_decide.mpr
        omega
    · have hstep : isRateLimited W N st c t =
          (false, setEntry st c ⟨k + 1, R⟩) := by
        simp [isRateLimited, hlk, htR, hk]
      rw [runChecks, hstep]
      rw [ih (setEntry st c ⟨k + 1, R⟩) (k + 1) R (lookupEntry_setEntry st c _) htail]
      congr 1
      · simp [hk]
      · apply List.map_congr_left
        intro i _
        simp only [Function.comp]
        apply decide_eq_decide.mpr
        omega

/-- Claim C6: starting from no entry, a sequence of checks all falling
inside the first check's window yields not-limited for the first 5 checks
and limited from the 6th on (the i-th result is `5 ≤ i` for 0-based i);
moreover a limited check returns the state unchanged, so it does not
increment the stored count (defaults W = 60000 ms, N = 5). -/
theorem claim6_window_admission (st0 : List (String × RateLimitEntry))
    (c : String) (t0 : ℕ) (ts : List ℕ)
    (hfresh : lookupEntry st0 c = none)
    (hwin : ∀ t ∈ ts, t < t0 + 60000) :
    runChecks 60000 5 st0 c (t0 :: ts) =
      (List.range (ts.length + 1)).map (fun i => decide (5 ≤ i)) ∧
    (∀ (st : List (String × RateLimitEntry)) (entry : RateLimitEntry) (t : ℕ),
      lookupEntry st c = some entry → t < entry.resetTime →
      5 ≤ entry.count → isRateLimited 60000 5 st c t = (true, st)) := by
  constructor
  · have hstep : isRateLimited 60000 5 st0 c t0 =
        (false, setEntry st0 c ⟨1, t0 + 60000⟩) := by
      simp [isRateLimited, hfresh]
    rw [runChecks, hstep]
    rw [runChecks_of_entry 60000 5 c ts _ 1 (t0 + 60000)
      (lookupEntry_setEntry st0 c _) hwin]
    rw [List.range_succ_eq_map, List.map_cons, List.map_map]
    congr 1
    apply List.map_congr_left
    intro i _
    simp only [Function.comp]
    apply decide_eq_decide.mpr
    omega
  · intro st entry t hlk hlive hcount
    have h1 : ¬ (entry.resetTime ≤ t) := by omega
    simp [isRateLimited, hlk, h1, hcount]

/-- Witness for C6: seven consecutive checks at times 0..6. -/
theorem claim6_witness :
    runChecks 60000 5 [] "ip" [0, 1, 2, 3, 4, 5, 6] =
      [false, false, false, false, false, true, true] := by
  have h := (claim6_window_admission [] "ip" 0 [1, 2, 3, 4, 5, 6] rfl
    (by decide)).1
  rw [h]
  rfl

theorem strIncludes_eq_false_iff (hay needle : String) :
    strIncludes hay needle = false ↔ ¬ OccursIn needle hay := by
  rw [← strIncludes_iff]
  cases h : strIncludes hay needle <;> simp

/-- Claim C1 counterexample: both challenge checks are case-sensitive and
their vocabularies differ.  The title "Security check" trips the dynamic
check but not the static one (the static vocabulary lacks "Security"), and
the title "Captcha" contains "captcha" case-insensitively yet trips
neither check. -/
theorem claim1_counterexample :
    dynamicChallengeCheck "Security check" = true ∧
    staticChallengeCheck "Security check" = false ∧
    dynamicChallengeCheck "Captcha" = false ∧
    staticChallengeCheck "Captcha" = false ∧
    strIncludes (jsToLower "Captcha") "captcha" = true := by
  refine ⟨?_, ?_, ?_, ?_, ?_⟩ <;> decide

/-- Claim C1 (amended): the Dynamic Extractor's challenge check matches
exactly when the title contains, case-sensitively, one of "human",
"touch", "CAPTCHA", "Security"; the Static Extractor's check matches
exactly when the title contains one of "human", "touch", "CAPTCHA" (it
omits "Security"); and whenever the static check matches, the static
extractor returns the empty record list immediately. -/
theorem claim1_challenge_checks (title : String) :
    (dynamicChallengeCheck title = true ↔
      ∃ m ∈ dynamicMarkers, OccursIn m title) ∧
    (staticChallengeCheck title = true ↔
      ∃ m ∈ staticMarkers, OccursIn m title) ∧
    (staticChallengeCheck title = true →
      ∀ els, extractFiverrReviewsStatic title els = []) := by
  refine ⟨?_, ?_, ?_⟩
  · simp only [dynamicChallengeCheck, Bool.or_eq_true, strIncludes_iff]
    constructor
    · rintro (((h | h) | h) | h)
      · exact ⟨"human", by simp [dynamicMarkers], h⟩
      · exact ⟨"touch", by simp [dynamicMarkers], h⟩
      · exact ⟨"CAPTCHA", by simp [dynamicMarkers], h⟩
      · exact ⟨"Security", by simp [dynamicMarkers], h⟩
    · rintro ⟨m, hm, hocc⟩
      simp only [dynamicMarkers, List.mem_cons, List.mem_singleton,
        List.not_mem_nil, or_false] at hm
      rcases hm with rfl | rfl | rfl | rfl
      · exact Or.inl (Or.inl (Or.inl hocc))
      · exact Or.inl (Or.inl (Or.inr hocc))
      · exact Or.inl (Or.inr hocc)
      · exact Or.inr hocc
  · simp only [staticChallengeCheck, Bool.or_eq_true, strIncludes_iff]
    constructor
    · rintro ((h | h) | h)
      · exact ⟨"human", by simp [staticMarkers], h⟩
      · exact ⟨"touch", by simp [staticMarkers], h⟩
      · exact ⟨"CAPTCHA", by simp [staticMarkers], h⟩
    · rintro ⟨m, hm, hocc⟩
      simp only [staticMarkers, List.mem_cons, List.mem_singleton,
        List.not_mem_nil, or_false] at hm
      rcases hm with rfl | rfl | rfl
      · exact Or.inl (Or.inl hocc)
      · exact Or.inl (Or.inr hocc)
      · exact Or.inr hocc
  · intro h els
    simp [extractFiverrReviewsStatic, h]

/-- Witness for C1 at the title "CAPTCHA | Fiverr". -/
theorem claim1_witness :
    staticChallengeCheck "CAPTCHA | Fiverr" = true ∧
    extractFiverrReviewsStatic "CAPTCHA | Fiverr" [] = [] :=
  ⟨by decide,
   (claim1_challenge_checks "CAPTCHA | Fiverr").2.2 (by decide) []⟩

/-- Claim C8 counterexample: the primary content-selector strategy
accepts the 15-character text "Great work done", whose length is not
strictly greater than 20 — the primary lower bound is 10, not 20. -/
theorem claim8_counterexample :
    primaryTextOk "Great work done" = true ∧
    ¬ (20 < "Great work done".length) := by
  constructor <;> decide

/-- Claim C8 (amended): the primary content-selector strategy accepts a
trimmed text iff its length is strictly greater than 10 (not 20), below
2000, and its lowercasing contains none of the reveal-control phrases
"show more", "load more", "see all", "view all"; the fallback paragraph
strategy accepts iff the length is strictly greater than 20 and below
2000 (its lower bound is the stricter one). -/
theorem claim8_text_bounds (content : String) :
    (primaryTextOk content = true ↔
      10 < content.length ∧ content.length < 2000 ∧
      ¬ OccursIn "show more" (jsToLower content) ∧
      ¬ OccursIn "load more" (jsToLower content) ∧
      ¬ OccursIn "see all" (jsToLower content) ∧
      ¬ OccursIn "view all" (jsToLower content)) ∧
    (paragraphTextOk content = true ↔
      20 < content.length ∧ content.length < 2000) := by
  constructor
  · simp only [primaryTextOk, Bool.and_eq_true, decide_eq_true_eq,
      Bool.not_eq_true', strIncludes_eq_false_iff]
    constructor
    · rintro ⟨⟨⟨⟨⟨h1, h2⟩, h3⟩, h4⟩, h5⟩, h6⟩
      exact ⟨h1, h6, h2, h3, h4, h5⟩
    · rintro ⟨h1, h6, h2, h3, h4, h5⟩
      exact ⟨⟨⟨⟨⟨h1, h2⟩, h3⟩, h4⟩, h5⟩, h6⟩
  · simp only [paragraphTextOk, Bool.and_eq_true, decide_eq_true_eq]

/-- Joining five fields with commas is the corresponding `++`-chain. -/
theorem intercalateFive (a b c d e : String) :
    String.intercalate "," [a, b, c, d, e] =
      a ++ "," ++ b ++ "," ++ c ++ "," ++ d ++ "," ++ e := by
  apply String.ext
  simp [String.intercalate, String.intercalate.go, String.data_append,
    List.append_assoc]

/-- The produced CSV row coincides with the field-by-field shape. -/
theorem csvRow_eq_shape (r : Review) : csvRow r = csvRowShape r := by
  rw [csvRowShape, intercalateFive]
  apply String.ext
  simp [csvRow, quoteWrap, String.data_append, List.append_assoc]

/-- Claim C5 (amended): every `reviewsToCSV` data row consists of the
fields in order reviewer, rating, text, date, country, where reviewer and
text are quote-wrapped with inner quotes doubled, the rating is written
bare (not quote-wrapped), and date and country are quote-wrapped but
their inner quotes are not escaped. -/
theorem claim5_csv_shape (reviews : List Review) :
    reviewsToCSV reviews =
      String.intercalate "\n"
        (String.intercalate "," csvHeaders :: reviews.map csvRowShape) := by
  rw [reviewsToCSV]
  congr 1
  congr 1
  exact List.map_congr_left (fun r _ => csvRow_eq_shape r)

/-- Claim C5 counterexample: for a record whose date contains a quote,
the produced CSV leaves the rating unquoted and the date's inner quote
undoubled, so the output differs from the all-fields-quoted-and-escaped
serialization the claim describes. -/
theorem claim5_counterexample :
    reviewsToCSV [⟨"Ann", 5, "Nice \"work\"", "da\"te", ""⟩] =
      "Reviewer Name,Rating,Review Text,Review Date,Country\n\"Ann\",5,\"Nice \"\"work\"\"\",\"da\"te\",\"\"" ∧
    reviewsToCSV [⟨"Ann", 5, "Nice \"work\"", "da\"te", ""⟩] ≠
      reviewsToCSVAllQuoted [⟨"Ann", 5, "Nice \"work\"", "da\"te", ""⟩] := by
  constructor
  · rfl
  · intro h
    have h1 : reviewsToCSV [(⟨"Ann", 5, "Nice \"work\"", "da\"te", ""⟩ : Review)] =
        "Reviewer Name,Rating,Review Text,Review Date,Country\n\"Ann\",5,\"Nice \"\"work\"\"\",\"da\"te\",\"\"" := rfl
    have h2 : reviewsToCSVAllQuoted [(⟨"Ann", 5, "Nice \"work\"", "da\"te", ""⟩ : Review)] =
        "Reviewer Name,Rating,Review Text,Review Date,Country\n\"Ann\",\"5\",\"Nice \"\"work\"\"\",\"da\"\"te\",\"\"" := rfl
    rw [h1, h2] at h
    exact absurd h (by decide)

/-- Every record emitted by the dynamic element loop passed the
`rating > 0` validation. -/
theorem processElements_rating_pos :
    ∀ (els : List Element) (seen : List String) (r : Review),
      r ∈ processElements seen els → 0 < r.rating := by
  intro els
  induction els with
  | nil => intro seen r hr; simp [processElements] at hr
  | cons el rest ih =>
    intro seen r hr
    simp only [processElements] at hr
    split at hr
    · exact ih seen r hr
    · split at hr
      · exact ih seen r hr
      · split at hr
        · rcases List.mem_cons.mp hr with rfl | hr2
          · rename_i hguard
            have h2 := (Bool.and_eq_true _ _).mp hguard
            have h3 := (Bool.and_eq_true _ _).mp h2.1
            exact of_decide_eq_true h3.2
          · exact ih _ r hr2
        · exact ih seen r hr

/-- The static in-pass dedup only drops records. -/
theorem staticDedupGo_subset :
    ∀ (l : List Review) (seen : List String) (r : Review),
      r ∈ staticDedupGo seen l → r ∈ l := by
  intro l
  induction l with
  | nil => intro seen r hr; simp [staticDedupGo] at hr
  | cons x rest ih =>
    intro seen r hr
    simp only [staticDedupGo] at hr
    split at hr
    · exact List.mem_cons_of_mem _ (ih seen r hr)
    · rcases List.mem_cons.mp hr with rfl | hr2
      · exact List.mem_cons_self _ _
      · exact List.mem_cons_of_mem _ (ih _ r hr2)

/-- A record emitted by the static scan has an integral rating `≥ 1`. -/
theorem staticEmit_rating (e : StaticEl) (r : Review)
    (h : staticEmit e = some r) :
    (1 : ℚ) ≤ r.rating ∧ ∃ n : ℤ, r.rating = (n : ℚ) := by
  simp only [staticEmit] at h
  split at h
  · split at h
    · rename_i hguard
      injection h with h'
      subst h'
      have h2 := (Bool.and_eq_true _ _).mp hguard
      have h3 := (Bool.and_eq_true _ _).mp h2.1
      have hpos : 0 < staticRating e := of_decide_eq_true h3.2
      constructor
      · show (1 : ℚ) ≤ ((staticRating e : ℤ) : ℚ)
        exact_mod_cast hpos
      · exact ⟨staticRating e, rfl⟩
    · exact absurd h (by simp)
  · exact absurd h (by simp)

/-- Claim C3 (amended): every record emitted by the dynamic extractor
has rating strictly greater than 0, and every record emitted by the
static extractor has an integral rating at least 1; neither extractor
guarantees the rating is at most 5, and the dynamic aria-label strategy
can emit non-integral ratings (see the counterexample). -/
theorem claim3_rating_bounds (dEls : List Element) (title : String)
    (sEls : List StaticEl) :
    (∀ r ∈ extractReviewsModel dEls, 0 < r.rating) ∧
    (∀ r ∈ extractFiverrReviewsStatic title sEls,
      (1 : ℚ) ≤ r.rating ∧ ∃ n : ℤ, r.rating = (n : ℚ)) := by
  constructor
  · intro r hr
    exact processElements_rating_pos dEls [] r hr
  · intro r hr
    simp only [extractFiverrReviewsStatic] at hr
    split at hr
    · simp at hr
    · have hr2 := staticDedupGo_subset _ [] r hr
      rcases List.mem_filterMap.mp hr2 with ⟨e, _, hemit⟩
      exact staticEmit_rating e r hemit

/-- The dynamic aria-label rating strategy applies `parseFloat` without
rounding: an aria-label "4.5 out of 5" yields the rating 45/10. -/
theorem claim3ElHalf_rating :
    extractRating claim3ElHalf = ((45 : ℕ) : ℚ) / ((10 : ℕ) : ℚ) := by
  have hne : (((45 : ℕ) : ℚ) / ((10 : ℕ) : ℚ)) ≠ 0 := by
    push_cast
    norm_num
  have hm : matchXoutOfY "4.5 out of 5" =
      some (((45 : ℕ) : ℚ) / ((10 : ℕ) : ℚ), ((5 : ℕ) : ℚ)) := rfl
  simp only [extractRating, claim3ElHalf, hm]
  rw [if_neg hne, if_neg hne]

/-- Claim C3 counterexample: with an aria-label "10 out of 10" the
dynamic extractor emits a record whose rating 10 is not an integer
between 1 and 5; and with an aria-label "4.5 out of 5" the rating
strategy produces the non-integral value 45/10. -/
theorem claim3_counterexample :
    (∃ r ∈ extractReviewsModel [claim3ElTen],
      ¬ (∃ n : ℤ, r.rating = (n : ℚ) ∧ 1 ≤ n ∧ n ≤ 5)) ∧
    ¬ (∃ n : ℤ, extractRating claim3ElHalf = (n : ℚ)) := by
  constructor
  · refine ⟨⟨"alice", ((10 : ℕ) : ℚ),
      "This gig was absolutely wonderful!", "2023-10-15", ""⟩, ?_, ?_⟩
    · rw [show extractReviewsModel [claim3ElTen] =
        [⟨"alice", ((10 : ℕ) : ℚ), "This gig was absolutely wonderful!",
          "2023-10-15", ""⟩] from rfl]
      exact List.mem_singleton.mpr rfl
    · rintro ⟨n, hn, h1, h5⟩
      have hn' : ((10 : ℕ) : ℚ) = (n : ℚ) := hn
      have h10 : (10 : ℤ) = n := by exact_mod_cast hn'
      omega
  · rintro ⟨n, hn⟩
    rw [claim3ElHalf_rating] at hn
    push_cast at hn
    rw [div_eq_iff (by norm_num : (10 : ℚ) ≠ 0)] at hn
    have h2 : (45 : ℤ) = n * 10 := by exact_mod_cast hn
    omega

/-- Witness for C3: the rating of the concretely emitted record is
positive. -/
theorem claim3_witness :
    (0 : ℚ) < (⟨"alice", ((10 : ℕ) : ℚ),
      "This gig was absolutely wonderful!", "2023-10-15", ""⟩ : Review).rating :=
  (claim3_rating_bounds [claim3ElTen] "Fiverr" []).1 _
    (by rw [show extractReviewsModel [claim3ElTen] =
        [⟨"alice", ((10 : ℕ) : ℚ), "This gig was absolutely wonderful!",
          "2023-10-15", ""⟩] from rfl]
        exact List.mem_singleton.mpr rfl)

end Scraper
